import Mathlib

/-!
A shallow embedding of the in-process event-driven application in
src/mydrtv.py, together with proofs of the specified properties.

Translation conventions:
- Python strings are Lean String; str.lower() is pyLower; the
  substring test `a in b` is containsSub b a (defined below over char lists).
- Python dicts (insertion-ordered, unique keys) are association lists
  List (String x v); assignment d[k] = v is dictInsert (overwrite in place
  when the key exists, append otherwise); d.get(k, dflt) is lookup with a
  default.  collections.defaultdict(list) reads are ratingsFor (missing
  key yields []).
- The EventBus worker thread is modelled by its per-event delivery step
  (the body of EventBus._run for one dequeued event) and by processQueue,
  which folds that step over the FIFO queue contents.  A handler is a
  closure modelled as an identity tag plus a function returning
  Except String Unit; raising an exception is the Except.error case.
- publish's dynamic type check (dataclasses.is_dataclass) acts on
  arbitrary Python values, modelled by the PyValue type below.
- get_program_average performs Python binary64 float division; it is
  modelled by correctly rounded (round-to-nearest, ties-to-even) division
  pyFloatDiv, whose result is the exact rational value of the produced
  double.  The model covers the normal binary64 range, which contains
  every quotient reachable through rate's clamped stars; overflow,
  subnormals and division by zero (unreachable behind the emptiness
  guard) are not modelled.
-/

namespace MyDRTV

/-- Python str.lower(): lowercase character by character.  (Defined over the
character list so that it evaluates by kernel reduction.) -/
def pyLower (s : String) : String := String.mk (s.data.map Char.toLower)

/-- Substring test on character lists: Python `sub in hay`. -/
def listContains (sub : List Char) : List Char → Bool
  | [] => decide (sub = [])
  | c :: rest => sub.isPrefixOf (c :: rest) || listContains sub rest

/-- Substring test on strings: Python `sub in hay`. -/
def containsSub (hay sub : String) : Bool :=
  listContains sub.toList hay.toList

/-- Python truthiness of an optional string argument: None and "" are falsy. -/
def strTruthy : Option String → Bool
  | none => false
  | some s => decide (s ≠ "")

/-- Python truthiness of an optional integer argument: None and 0 are falsy. -/
def intTruthy : Option Int → Bool
  | none => false
  | some n => decide (n ≠ 0)

/-- Python `opt or ""`. -/
def orEmpty : Option String → String
  | none => ""
  | some s => s

/-- The frozen Event dataclasses of src/mydrtv.py (Event plus its four
subclasses, each built by its create staticmethod with a fixed name). -/
inductive Event : Type
  | userRegistered (user_id username email : String)
  | programAdded (program_id title : String) (tags : List String) (year : Int) (genre : String)
  | programRated (user_id program_id : String) (stars : Int)
  | programSearched (user_id query : String)
deriving DecidableEq

/-- The routing key: the `name` field set by each create staticmethod. -/
def Event.name : Event → String
  | .userRegistered .. => "user.registered"
  | .programAdded .. => "program.added"
  | .programRated .. => "program.rated"
  | .programSearched .. => "program.searched"

/-- An arbitrary Python value handed to EventBus.publish: one of the frozen
event records, some other dataclass instance (frozen or not), or a
non-dataclass value. -/
inductive PyValue : Type
  | eventRec (e : Event)
  | otherDataclass (frozen : Bool)
  | nonDataclass
deriving DecidableEq

/-- dataclasses.is_dataclass: true for any dataclass instance. -/
def is_dataclass : PyValue → Bool
  | .eventRec _ => true
  | .otherDataclass _ => true
  | .nonDataclass => false

/-- Whether a value is one of the recognized immutable event records
(the frozen Event dataclasses) — the condition named by the spec. -/
def isRecognizedEventRecord : PyValue → Bool
  | .eventRec _ => true
  | _ => false

/-- EventBus.publish (lines 62-65): raise TypeError unless the value is a
dataclass, otherwise put it on the FIFO queue.  The queue is the list of
pending values, oldest first. -/
def publish (q : List PyValue) (v : PyValue) : Except String (List PyValue) :=
  if is_dataclass v then Except.ok (q ++ [v]) else Except.error "event must be dataclass"

/-- A subscribed handler: a tag identifying the closure plus its behaviour.
Raising an exception with message m is modelled as Except.error m. -/
structure Handler where
  id : Nat
  run : Event → Except String Unit

/-- The handler registry: EventBus._handlers, a dict from event name to the
ordered list of handlers. -/
def Registry : Type := List (String × List Handler)

/-- Python dict assignment d[k] = v: overwrite in place when k is present,
append at the end otherwise. -/
def dictInsert {v : Type} (d : List (String × v)) (k : String) (x : v) :
    List (String × v) :=
  if (d.lookup k).isSome then
    d.map (fun kv => if kv.1 = k then (k, x) else kv)
  else d ++ [(k, x)]

/-- EventBus.subscribe (lines 59-60): setdefault(event_name, []).append(handler),
i.e. the name's list becomes its old value (or []) with the handler appended. -/
def subscribe (reg : Registry) (event_name : String) (h : Handler) : Registry :=
  dictInsert reg event_name ((reg.lookup event_name).getD [] ++ [h])

/-- self._handlers.get(event.name, []) at line 73. -/
def handlersFor (reg : Registry) (name : String) : List Handler :=
  (reg.lookup name).getD []

/-- The per-handler loop of EventBus._run (lines 73-77) over a given handler
list: invoke each handler in order; a raised exception is caught at the
per-handler boundary and printed (recorded in the error log), and the loop
continues.  Returns the trace of invoked handler ids (in invocation order)
and the error log entries (event name, handler id, message). -/
def runHandlers (e : Event) : List Handler → List Nat × List (String × Nat × String)
  | [] => ([], [])
  | h :: hs =>
    let rest := runHandlers e hs
    match h.run e with
    | Except.ok _ => (h.id :: rest.1, rest.2)
    | Except.error msg => (h.id :: rest.1, (e.name, h.id, msg) :: rest.2)

/-- One iteration of the worker loop for a dequeued event: look up the
ordered handler list for the event's name (empty when none is registered)
and run the per-handler loop. -/
def deliver (reg : Registry) (e : Event) : List Nat × List (String × Nat × String) :=
  runHandlers e (handlersFor reg e.name)

/-- The worker loop draining a FIFO queue of events: each dequeued event is
delivered by `deliver`; results are listed in dequeue order. -/
def processQueue (reg : Registry) : List Event → List (List Nat × List (String × Nat × String))
  | [] => []
  | e :: es => deliver reg e :: processQueue reg es

/-- A user record held in the store (UsersModule.register line 100). -/
structure UserRec where
  user_id : String
  username : String
  email : String
deriving DecidableEq

/-- A program record held in the store (CatalogModule.add_program lines 110-116). -/
structure Program where
  program_id : String
  title : String
  tags : List String
  year : Int
  genre : String
deriving DecidableEq

/-- InMemoryStore (lines 85-91): users, programs, ratings_by_program,
search_log and metrics.  ratings_by_program is a defaultdict(list) from
program id to the ordered (user_id, stars) list; search_log and metrics are
initialized empty and never written by any module. -/
structure Store where
  users : List (String × UserRec)
  programs : List (String × Program)
  ratings_by_program : List (String × List (String × Int))
  search_log : List (String × String)
  metrics : List (String × Int)
deriving DecidableEq

/-- A freshly constructed InMemoryStore. -/
def Store.empty : Store :=
  { users := [], programs := [], ratings_by_program := [], search_log := [], metrics := [] }

/-- defaultdict(list) read: self.store.ratings_by_program[pid] as a value
(missing key yields the empty list), used both by rate and by
get_program_average via .get(pid, []). -/
def ratingsFor (s : Store) (pid : String) : List (String × Int) :=
  (s.ratings_by_program.lookup pid).getD []

/-- UsersModule.register (lines 98-102): store the user record under the
generated id, publish user.registered with the raw inputs, return the id.
The generated uuid is passed in as uid. -/
def register_user (s : Store) (uid username email : String) :
    Store × List Event × String :=
  let u : UserRec := { user_id := uid, username := username, email := email }
  ({ s with users := dictInsert s.users uid u },
   [Event.userRegistered uid username email], uid)

/-- CatalogModule.add_program (lines 108-118): store the record with tags
and genre lowercased, publish program.added with the caller's original tags
and genre, return the generated id (passed in as pid). -/
def add_program (s : Store) (pid title : String) (tags : List String)
    (year : Int) (genre : String) : Store × List Event × String :=
  let p : Program :=
    { program_id := pid, title := title, tags := tags.map pyLower,
      year := year, genre := pyLower genre }
  ({ s with programs := dictInsert s.programs pid p },
   [Event.programAdded pid title tags year genre], pid)

/-- RatingsModule.rate (lines 123-126): clamp stars into [1,5], append
(user_id, stars) to the program's rating list, publish program.rated with
the clamped value. -/
def rate (s : Store) (user_id program_id : String) (stars : Int) :
    Store × List Event :=
  let clamped := max 1 (min 5 stars)
  let newList := ratingsFor s program_id ++ [(user_id, clamped)]
  ({ s with ratings_by_program := dictInsert s.ratings_by_program program_id newList },
   [Event.programRated user_id program_id clamped])

/-- Bit-length worker, structurally recursive on a fuel argument (any fuel
at least the argument itself is enough, since the argument halves at every
step). -/
def bitLenAux : Nat → Nat → Nat
  | 0, _ => 0
  | fuel + 1, n => if n = 0 then 0 else bitLenAux fuel (n / 2) + 1

/-- Bit length of a natural number: 0 for 0, floor(log2 n) + 1 otherwise. -/
def bitLen (n : Nat) : Nat := bitLenAux n n

/-- Round the positive rational a/b to the nearest binary64 value
(ties to even), returned as a mantissa-exponent pair (m, e) whose value is
m * 2 ^ (e - 52): e is the unique integer with 2 ^ e ≤ a/b < 2 ^ (e + 1),
and m rounds a/b * 2 ^ (52 - e) half-to-even. -/
def floatRound (a b : Nat) : Nat × Int :=
  let la := bitLen a - 1
  let lb := bitLen b - 1
  let e : Int :=
    if b * 2 ^ la ≤ a * 2 ^ lb then (la : Int) - (lb : Int)
    else (la : Int) - (lb : Int) - 1
  let t : Int := 52 - e
  let N := if 0 ≤ t then a * 2 ^ t.toNat else a
  let D := if 0 ≤ t then b else b * 2 ^ (-t).toNat
  let q := N / D
  let r := N % D
  let m :=
    if 2 * r < D then q
    else if D < 2 * r then q + 1
    else if q % 2 = 0 then q else q + 1
  (m, e)

/-- The exact rational value of the mantissa-exponent pair produced by
floatRound. -/
def dyadicVal (m : Nat) (e : Int) : Rat :=
  if 0 ≤ 52 - e then (m : Rat) / 2 ^ (52 - e).toNat
  else (m : Rat) * 2 ^ (e - 52).toNat

/-- Value of the binary64 double nearest to a/b for natural a, b (b > 0 in
the normal range). -/
def floatDivPos (a b : Nat) : Rat := dyadicVal (floatRound a b).1 (floatRound a b).2

/-- Python true division int / int, which CPython rounds correctly to the
nearest binary64 double: the result is the exact rational value of that
double. -/
def pyFloatDiv (a : Int) (b : Nat) : Rat :=
  if 0 ≤ a then floatDivPos a.toNat b else -(floatDivPos (-a).toNat b)

/-- RatingsModule.get_program_average (lines 127-129): sum(stars)/len as
Python binary64 float division (correctly rounded true division), 0.0 when
the program has no ratings. -/
def get_program_average (s : Store) (program_id : String) : Rat :=
  if (ratingsFor s program_id).isEmpty then 0
  else pyFloatDiv (((ratingsFor s program_id).map (fun r => r.2)).sum)
    ((ratingsFor s program_id).length)

/-- SearchModule.search (lines 135-149): start from all stored program
records; when query is truthy keep those whose lowercased title contains
the lowercased query or one of whose stored tags contains it; when year is
truthy keep those with that exact year; when genre is truthy keep those
whose stored genre equals the lowercased genre; finally publish
program.searched with `query or ""` and return the remaining records. -/
def search (s : Store) (user_id : String) (query : Option String)
    (year : Option Int) (genre : Option String) :
    Store × List Program × List Event :=
  let results0 := s.programs.map (fun kv => kv.2)
  let q := pyLower (orEmpty query)
  let results1 :=
    if strTruthy query then
      results0.filter (fun p =>
        containsSub (pyLower p.title) q || p.tags.any (fun t => containsSub t q))
    else results0
  let results2 :=
    if intTruthy year then
      results1.filter (fun p => decide (p.year = (year.getD 0)))
    else results1
  let results3 :=
    if strTruthy genre then
      results2.filter (fun p => decide (p.genre = pyLower (orEmpty genre)))
    else results2
  (s, results3, [Event.programSearched user_id (orEmpty query)])

/-! ### Association-list lemmas for the Python dict model -/

theorem lookup_map_update_self {v : Type} (d : List (String × v)) (k : String) (x : v) :
    (d.map (fun kv => if kv.1 = k then (k, x) else kv)).lookup k =
      if (d.lookup k).isSome then some x else none := by
  induction d with
  | nil => simp
  | cons a tl ih =>
    rcases a with ⟨a1, a2⟩
    rw [List.map_cons]
    by_cases h : a1 = k
    · subst h
      rw [if_pos rfl]
      simp [List.lookup]
    · rw [if_neg h]
      have hne : (k == a1) = false := by
        simp only [beq_eq_false_iff_ne, ne_eq]
        exact fun he => h he.symm
      rw [List.lookup_cons, List.lookup_cons, hne]
      simp [ih]

theorem lookup_map_update_ne {v : Type} (d : List (String × v)) (k k' : String) (x : v)
    (hk : k' ≠ k) :
    (d.map (fun kv => if kv.1 = k then (k, x) else kv)).lookup k' = d.lookup k' := by
  induction d with
  | nil => simp
  | cons a tl ih =>
    rcases a with ⟨a1, a2⟩
    rw [List.map_cons]
    by_cases h : a1 = k
    · subst h
      rw [if_pos rfl]
      have hne : (k' == a1) = false := by
        simp only [beq_eq_false_iff_ne, ne_eq]
        exact hk
      simp [List.lookup, hne, ih]
    · rw [if_neg h]
      by_cases h2 : k' = a1
      · subst h2
        simp [List.lookup, beq_self_eq_true]
      · have hne : (k' == a1) = false := by
          simp only [beq_eq_false_iff_ne, ne_eq]
          exact h2
        simp [List.lookup, hne, ih]

theorem lookup_append_single_self {v : Type} (d : List (String × v)) (k : String) (x : v)
    (h : d.lookup k = none) : (d ++ [(k, x)]).lookup k = some x := by
  induction d with
  | nil => simp [List.lookup]
  | cons a tl ih =>
    rcases a with ⟨a1, a2⟩
    by_cases hk : k = a1
    · subst hk
      simp only [List.lookup, beq_self_eq_true] at h
      exact absurd h (Option.some_ne_none a2)
    · have hne : (k == a1) = false := by
        simp only [beq_eq_false_iff_ne, ne_eq]
        exact hk
      simp only [List.lookup, hne] at h
      simp only [List.cons_append, List.lookup, hne]
      exact ih h

theorem lookup_append_single_ne {v : Type} (d : List (String × v)) (k k' : String) (x : v)
    (hk : k' ≠ k) : (d ++ [(k, x)]).lookup k' = d.lookup k' := by
  induction d with
  | nil =>
    have hne : (k' == k) = false := by
      simp only [beq_eq_false_iff_ne, ne_eq]
      exact hk
    simp [List.lookup, hne]
  | cons a tl ih =>
    rcases a with ⟨a1, a2⟩
    by_cases h2 : k' = a1
    · subst h2
      simp [List.lookup, beq_self_eq_true]
    · have hne : (k' == a1) = false := by
        simp only [beq_eq_false_iff_ne, ne_eq]
        exact h2
      simp only [List.cons_append, List.lookup, hne]
      exact ih

theorem lookup_dictInsert_self {v : Type} (d : List (String × v)) (k : String) (x : v) :
    (dictInsert d k x).lookup k = some x := by
  unfold dictInsert
  by_cases h : (d.lookup k).isSome
  · rw [if_pos h, lookup_map_update_self, if_pos h]
  · rw [if_neg h]
    exact lookup_append_single_self d k x (Option.not_isSome_iff_eq_none.mp h)

theorem lookup_dictInsert_ne {v : Type} (d : List (String × v)) (k k' : String) (x : v)
    (hk : k' ≠ k) : (dictInsert d k x).lookup k' = d.lookup k' := by
  unfold dictInsert
  by_cases h : (d.lookup k).isSome
  · rw [if_pos h, lookup_map_update_ne d k k' x hk]
  · rw [if_neg h, lookup_append_single_ne d k k' x hk]

theorem dictInsert_of_lookup_none {v : Type} (d : List (String × v)) (k : String) (x : v)
    (h : d.lookup k = none) : dictInsert d k x = d ++ [(k, x)] := by
  unfold dictInsert
  rw [h]
  simp

/-! ### Delivery-loop lemmas -/

theorem handlersFor_subscribe_self (reg : Registry) (n : String) (h : Handler) :
    handlersFor (subscribe reg n h) n = handlersFor reg n ++ [h] := by
  unfold handlersFor subscribe
  rw [lookup_dictInsert_self]
  rfl

theorem runHandlers_fst (e : Event) (hs : List Handler) :
    (runHandlers e hs).1 = hs.map Handler.id := by
  induction hs with
  | nil => rfl
  | cons h tl ih =>
    unfold runHandlers
    cases hr : h.run e <;> simp [hr, ih]

theorem runHandlers_snd_cons (e : Event) (h : Handler) (tl : List Handler) :
    (runHandlers e (h :: tl)).2 =
      match h.run e with
      | Except.ok _ => (runHandlers e tl).2
      | Except.error msg => (e.name, h.id, msg) :: (runHandlers e tl).2 := by
  cases hr : h.run e <;> simp [runHandlers, hr]

theorem runHandlers_error_mem (e : Event) (hs : List Handler) (h : Handler) (msg : String)
    (hmem : h ∈ hs) (hfail : h.run e = Except.error msg) :
    (e.name, h.id, msg) ∈ (runHandlers e hs).2 := by
  induction hs with
  | nil => cases hmem
  | cons h0 tl ih =>
    rw [runHandlers_snd_cons]
    rcases List.mem_cons.mp hmem with heq | htl
    · subst heq
      rw [hfail]
      exact List.mem_cons_self _ _
    · split
      · exact ih htl
      · exact List.mem_cons_of_mem _ (ih htl)

/-! ### C1, C2, C3 -/

/-- C1: for every dequeued event, the worker loop invokes exactly the
handlers subscribed to the event's name at dequeue time, once each and
strictly in registration order (subscribe appends to the name's ordered
list); with no handler registered for the name, delivery is a no-op with
an empty trace and an empty error log, not an error. -/
theorem dispatch_in_registration_order (reg : Registry) (e : Event)
    (n : String) (h : Handler) :
    (deliver reg e).1 = (handlersFor reg e.name).map Handler.id ∧
    handlersFor (subscribe reg n h) n = handlersFor reg n ++ [h] ∧
    (handlersFor reg e.name = [] → deliver reg e = ([], [])) := by
  refine ⟨runHandlers_fst e _, handlersFor_subscribe_self reg n h, ?_⟩
  intro hempty
  unfold deliver
  rw [hempty]
  rfl

/-- Always-succeeding handler used in concrete registries. -/
def hOk : Handler := { id := 1, run := fun _ => Except.ok () }

/-- Always-raising handler used in concrete registries. -/
def hBad : Handler := { id := 2, run := fun _ => Except.error "boom" }

/-- Second always-succeeding handler used in concrete registries. -/
def hOk2 : Handler := { id := 3, run := fun _ => Except.ok () }

/-- A concrete registry with three handlers on program.rated, the middle one
always raising. -/
def regDemo : Registry :=
  subscribe (subscribe (subscribe [] "program.rated" hOk) "program.rated" hBad)
    "program.rated" hOk2

/-- A concrete program.rated event. -/
def evDemo : Event := Event.programRated "u1" "p1" 5

/-- Witness for C1 at a concrete registry and event, including the no-handler
no-op case on the empty registry. -/
theorem dispatch_in_registration_order_witness :
    (deliver regDemo evDemo).1 = (handlersFor regDemo evDemo.name).map Handler.id ∧
    handlersFor (subscribe regDemo "program.rated" hOk) "program.rated" =
      handlersFor regDemo "program.rated" ++ [hOk] ∧
    deliver ([] : Registry) evDemo = ([], []) := by
  refine ⟨(dispatch_in_registration_order regDemo evDemo "program.rated" hOk).1,
    (dispatch_in_registration_order regDemo evDemo "program.rated" hOk).2.1,
    (dispatch_in_registration_order ([] : Registry) evDemo "program.rated" hOk).2.2 rfl⟩

/-- C2: when a handler raises during delivery of an event, the exception is
caught at the per-handler boundary and recorded in the error log, every
handler registered for the event (before and after the failing one) is
still invoked exactly once in order, the worker proceeds to deliver the
remaining queued events, the failed invocation is not retried (the trace
lists each registration exactly once), and the failure is never surfaced to
the publisher (publish of a further event still succeeds). -/
theorem handler_failure_is_isolated (reg : Registry) (e : Event) (es : List Event)
    (h : Handler) (msg : String) (q : List PyValue)
    (hmem : h ∈ handlersFor reg e.name)
    (hfail : h.run e = Except.error msg) :
    (deliver reg e).1 = (handlersFor reg e.name).map Handler.id ∧
    (e.name, h.id, msg) ∈ (deliver reg e).2 ∧
    processQueue reg (e :: es) = deliver reg e :: processQueue reg es ∧
    (∀ e2 : Event, publish q (PyValue.eventRec e2) =
      Except.ok (q ++ [PyValue.eventRec e2])) := by
  refine ⟨runHandlers_fst e _, runHandlers_error_mem e _ h msg hmem hfail, rfl, ?_⟩
  intro e2
  rfl

/-- Witness for C2: in the three-handler registry the middle handler raises
on the dequeued event; both surrounding handlers still run, the error is
logged, and the next queued event is still processed. -/
theorem handler_failure_is_isolated_witness :
    (deliver regDemo evDemo).1 = (handlersFor regDemo evDemo.name).map Handler.id ∧
    ("program.rated", 2, "boom") ∈ (deliver regDemo evDemo).2 ∧
    processQueue regDemo (evDemo :: [evDemo]) =
      deliver regDemo evDemo :: processQueue regDemo [evDemo] ∧
    (∀ e2 : Event, publish [] (PyValue.eventRec e2) = Except.ok [PyValue.eventRec e2]) := by
  have hmem : hBad ∈ handlersFor regDemo evDemo.name := by
    rw [show evDemo.name = "program.rated" from rfl]
    rw [show handlersFor regDemo "program.rated" = [hOk, hBad, hOk2] from rfl]
    exact List.mem_cons_of_mem _ (List.mem_cons_self _ _)
  exact handler_failure_is_isolated regDemo evDemo [evDemo] hBad "boom" [] hmem rfl

/-- C3 counterexample: a mutable dataclass instance that is not one of the
recognized immutable event records is accepted by publish and enqueued
rather than rejected, so publish does not raise exactly on the
non-event-record values. -/
theorem publish_accepts_unrecognized_dataclass :
    isRecognizedEventRecord (PyValue.otherDataclass false) = false ∧
    publish [] (PyValue.otherDataclass false) =
      Except.ok [PyValue.otherDataclass false] :=
  ⟨rfl, rfl⟩

/-- C3 (amended): publish raises a TypeError, surfaced synchronously with
nothing enqueued, precisely when the value is not a dataclass instance;
every dataclass value — in particular every well-formed event record, but
also dataclasses that are not event records — is enqueued exactly once at
the back of the FIFO queue and publish returns without error. -/
theorem publish_rejects_exactly_non_dataclasses (q : List PyValue) (v : PyValue) :
    (is_dataclass v = false → publish q v = Except.error "event must be dataclass") ∧
    (is_dataclass v = true → publish q v = Except.ok (q ++ [v])) ∧
    (∀ e : Event, publish q (PyValue.eventRec e) =
      Except.ok (q ++ [PyValue.eventRec e])) := by
  refine ⟨fun hf => ?_, fun ht => ?_, fun e => rfl⟩
  · unfold publish; rw [hf]; rfl
  · unfold publish; rw [ht]; rfl

/-- Witness for C3 (amended): a non-dataclass is rejected; an event record
is enqueued. -/
theorem publish_rejects_exactly_non_dataclasses_witness :
    publish [] PyValue.nonDataclass = Except.error "event must be dataclass" ∧
    publish [] (PyValue.eventRec evDemo) = Except.ok [PyValue.eventRec evDemo] :=
  ⟨(publish_rejects_exactly_non_dataclasses [] PyValue.nonDataclass).1 rfl,
   (publish_rejects_exactly_non_dataclasses [] (PyValue.eventRec evDemo)).2.2 evDemo⟩

/-! ### C5, C6, C7 -/

/-- C5: rate clamps the stored star value into [1,5] — the appended rating
entry carries max 1 (min 5 stars), which is always within bounds, equals
the input whenever the input is already in [1,5], and is the same value the
published program.rated event carries. -/
theorem rate_clamps_into_bounds (s : Store) (uid pid : String) (stars : Int) :
    ratingsFor (rate s uid pid stars).1 pid =
      ratingsFor s pid ++ [(uid, max 1 (min 5 stars))] ∧
    1 ≤ max 1 (min 5 stars) ∧ max 1 (min 5 stars) ≤ 5 ∧
    (1 ≤ stars → stars ≤ 5 → max 1 (min 5 stars) = stars) ∧
    (rate s uid pid stars).2 = [Event.programRated uid pid (max 1 (min 5 stars))] := by
  refine ⟨?_, le_max_left 1 _, ?_, fun h1 h5 => ?_, rfl⟩
  · unfold rate ratingsFor
    rw [lookup_dictInsert_self]
    rfl
  · exact max_le (by norm_num) (min_le_left 5 stars)
  · rw [min_eq_right h5, max_eq_right h1]

/-- Witness for C5: input 0 is stored as 1, input 9 is stored as 5, and an
in-range input (3) is stored unchanged. -/
theorem rate_clamps_into_bounds_witness :
    ratingsFor (rate Store.empty "u" "p" 0).1 "p" = [("u", 1)] ∧
    ratingsFor (rate Store.empty "u" "p" 9).1 "p" = [("u", 5)] ∧
    max 1 (min 5 (3 : Int)) = 3 := by
  refine ⟨?_, ?_, (rate_clamps_into_bounds Store.empty "u" "p" 3).2.2.2.1 (by decide) (by decide)⟩
  · rw [(rate_clamps_into_bounds Store.empty "u" "p" 0).1]
    decide
  · rw [(rate_clamps_into_bounds Store.empty "u" "p" 9).1]
    decide

/-- Store holding ratings [5,5] for program p, built through rate. -/
def store55 : Store := (rate ((rate Store.empty "a" "p" 5).1) "b" "p" 5).1

/-- Store holding ratings [5,4,3] for program p, built through rate. -/
def store543 : Store :=
  (rate ((rate ((rate Store.empty "a" "p" 5).1) "b" "p" 4).1) "c" "p" 3).1

/-- Store holding ratings [5,4,4] for program p, built through rate. -/
def store544 : Store :=
  (rate ((rate ((rate Store.empty "a" "p" 5).1) "b" "p" 4).1) "c" "p" 4).1

theorem store55_average : get_program_average store55 "p" = 5 := by
  have h : ratingsFor store55 "p" = [("a", (5 : Int)), ("b", 5)] := by decide
  simp only [get_program_average, h]
  norm_num [pyFloatDiv, floatDivPos, dyadicVal,
    show ((10 : Int)).toNat = 10 from rfl,
    show floatRound 10 2 = (5629499534213120, 2) from by decide,
    show ((52 : Int) - 2).toNat = 50 from rfl,
    show ((50 : Int)).toNat = 50 from rfl]

theorem store543_average : get_program_average store543 "p" = 4 := by
  have h : ratingsFor store543 "p" = [("a", (5 : Int)), ("b", 4), ("c", 3)] := by decide
  simp only [get_program_average, h]
  norm_num [pyFloatDiv, floatDivPos, dyadicVal,
    show ((12 : Int)).toNat = 12 from rfl,
    show floatRound 12 3 = (4503599627370496, 2) from by decide,
    show ((52 : Int) - 2).toNat = 50 from rfl,
    show ((50 : Int)).toNat = 50 from rfl]

theorem store544_average :
    get_program_average store544 "p" = (4878899596318037 : Rat) / 2 ^ 50 := by
  have h : ratingsFor store544 "p" = [("a", (5 : Int)), ("b", 4), ("c", 4)] := by decide
  simp only [get_program_average, h]
  norm_num [pyFloatDiv, floatDivPos, dyadicVal,
    show ((13 : Int)).toNat = 13 from rfl,
    show floatRound 13 3 = (4878899596318037, 2) from by decide,
    show ((52 : Int) - 2).toNat = 50 from rfl,
    show ((50 : Int)).toNat = 50 from rfl]

/-- C6 counterexample: the ratings [5,4,4], reachable through three rate
calls, have exact arithmetic mean 13/3, but get_program_average returns the
value of the nearest binary64 double, which is not 13/3 — so the function
does not return the exact arithmetic mean of the stored stars. -/
theorem average_not_exact_mean_counterexample :
    ratingsFor store544 "p" = [("a", 5), ("b", 4), ("c", 4)] ∧
    get_program_average store544 "p" ≠ (13 : Rat) / 3 := by
  refine ⟨by decide, ?_⟩
  rw [store544_average]
  norm_num

/-- C6 (amended): get_program_average returns 0 for a program with no
stored ratings, and otherwise the value of the binary64 double nearest to
the arithmetic mean of the stored stars (Python float division of the star
sum by the rating count), which is the exact mean only when that mean is
representable: for ratings [5,5] it returns exactly 5 and for [5,4,3]
exactly 4, while for [5,4,4] it returns 4878899596318037 / 2 ^ 50, not the
exact mean 13/3. -/
theorem average_is_rounded_mean (s : Store) (pid : String) :
    (ratingsFor s pid = [] → get_program_average s pid = 0) ∧
    (ratingsFor s pid ≠ [] →
      get_program_average s pid =
        pyFloatDiv (((ratingsFor s pid).map (fun r => r.2)).sum)
          ((ratingsFor s pid).length)) ∧
    get_program_average store55 "p" = 5 ∧
    get_program_average store543 "p" = 4 ∧
    get_program_average store544 "p" = (4878899596318037 : Rat) / 2 ^ 50 ∧
    (4878899596318037 : Rat) / 2 ^ 50 ≠ (13 : Rat) / 3 := by
  refine ⟨fun hnil => ?_, fun hne => ?_, store55_average, store543_average,
    store544_average, by norm_num⟩
  · simp only [get_program_average, hnil]
    rfl
  · simp only [get_program_average]
    rw [if_neg (by simpa using hne)]

/-- Witness for C6: the no-rating case applied to the empty store, and the
rounded-mean case applied to the two-rating store. -/
theorem average_is_rounded_mean_witness :
    get_program_average Store.empty "p" = 0 ∧
    ratingsFor store55 "p" ≠ [] ∧
    get_program_average store55 "p" =
      pyFloatDiv (((ratingsFor store55 "p").map (fun r => r.2)).sum)
        ((ratingsFor store55 "p").length) := by
  refine ⟨(average_is_rounded_mean Store.empty "p").1 rfl, by decide, ?_⟩
  exact (average_is_rounded_mean store55 "p").2.1 (by decide)

/-- C7: every call to search publishes exactly one program.searched event
carrying the query (empty string when no query text was given), for every
store and every combination of filters — in particular also when the
result list is empty or every filter is absent. -/
theorem search_publishes_exactly_one_event (s : Store) (uid : String)
    (q : Option String) (y : Option Int) (g : Option String) :
    (search s uid q y g).2.2 = [Event.programSearched uid (orEmpty q)] ∧
    ((search s uid q y g).2.2).length = 1 :=
  ⟨rfl, rfl⟩

/-! ### C8, C9, C10 -/

theorem orEmpty_of_falsy (q : Option String) (h : strTruthy q = false) : orEmpty q = "" := by
  cases q with
  | none => rfl
  | some s =>
    simp only [strTruthy, decide_eq_false_iff_not, ne_eq, not_not] at h
    simpa [orEmpty] using h

/-- C8: no domain operation deletes or overwrites an existing store entry.
With a fresh generated id, register_user and add_program append one entry
to their collection and leave every other collection untouched; rate only
appends one (user_id, stars) pair at the end of the rated program's list,
leaving other programs' rating lists and all other collections untouched;
search leaves the whole store untouched. -/
theorem store_is_append_only (s : Store) (uid uname email pid title : String)
    (tags : List String) (year : Int) (genre : String)
    (ruid rpid : String) (stars : Int) (quid : String)
    (q : Option String) (y : Option Int) (g : Option String) :
    (s.users.lookup uid = none →
      (register_user s uid uname email).1.users =
        s.users ++ [(uid, { user_id := uid, username := uname, email := email })] ∧
      (register_user s uid uname email).1.programs = s.programs ∧
      (register_user s uid uname email).1.ratings_by_program = s.ratings_by_program ∧
      (register_user s uid uname email).1.search_log = s.search_log) ∧
    (s.programs.lookup pid = none →
      (add_program s pid title tags year genre).1.programs =
        s.programs ++ [(pid, ⟨pid, title, tags.map pyLower, year, pyLower genre⟩)] ∧
      (add_program s pid title tags year genre).1.users = s.users ∧
      (add_program s pid title tags year genre).1.ratings_by_program = s.ratings_by_program ∧
      (add_program s pid title tags year genre).1.search_log = s.search_log) ∧
    ((rate s ruid rpid stars).1.users = s.users ∧
     (rate s ruid rpid stars).1.programs = s.programs ∧
     (rate s ruid rpid stars).1.search_log = s.search_log ∧
     (∀ k, k ≠ rpid → ratingsFor (rate s ruid rpid stars).1 k = ratingsFor s k) ∧
     ratingsFor (rate s ruid rpid stars).1 rpid =
       ratingsFor s rpid ++ [(ruid, max 1 (min 5 stars))]) ∧
    (search s quid q y g).1 = s := by
  refine ⟨fun hu => ⟨?_, rfl, rfl, rfl⟩, fun hp => ⟨?_, rfl, rfl, rfl⟩,
    ⟨rfl, rfl, rfl, fun k hk => ?_, ?_⟩, rfl⟩
  · unfold register_user
    exact dictInsert_of_lookup_none s.users uid _ hu
  · unfold add_program
    exact dictInsert_of_lookup_none s.programs pid _ hp
  · unfold rate ratingsFor
    rw [lookup_dictInsert_ne _ rpid k _ hk]
  · unfold rate ratingsFor
    rw [lookup_dictInsert_self]
    rfl

/-- Witness for C8 at concrete fresh ids on the empty store: register and
add_program append their entry, rate leaves other programs' rating lists
untouched, search leaves the store untouched. -/
theorem store_is_append_only_witness :
    (register_user Store.empty "u1" "anna" "anna@mail.com").1.users =
      [("u1", { user_id := "u1", username := "anna", email := "anna@mail.com" })] ∧
    (add_program Store.empty "p1" "Borgen" ["Drama"] 2010 "Political").1.programs =
      [("p1", { program_id := "p1", title := "Borgen", tags := ["drama"],
                year := 2010, genre := "political" })] ∧
    ratingsFor (rate Store.empty "u1" "p1" 4).1 "p2" = ratingsFor Store.empty "p2" ∧
    (search Store.empty "u1" (some "x") none none).1 = Store.empty := by
  have H := store_is_append_only Store.empty "u1" "anna" "anna@mail.com" "p1" "Borgen"
    ["Drama"] 2010 "Political" "u1" "p1" 4 "u1" (some "x") none none
  refine ⟨?_, ?_, H.2.2.1.2.2.2.1 "p2" (by decide), H.2.2.2⟩
  · rw [(H.1 rfl).1]
    rfl
  · rw [(H.2.1 rfl).1]
    decide

/-- C9: add_program stores the record with tags and genre lowercased, while
the published program.added event carries the caller's original tags and
genre, and the returned id is the key under which the new record is stored;
at the concrete input (tags ["Drama"], genre "Political") the event payload
accordingly differs from the stored record. -/
theorem add_program_event_carries_raw_input (s : Store) (pid title : String)
    (tags : List String) (year : Int) (genre : String) :
    (add_program s pid title tags year genre).1.programs.lookup pid =
      some { program_id := pid, title := title, tags := tags.map pyLower,
             year := year, genre := pyLower genre } ∧
    (add_program s pid title tags year genre).2.1 =
      [Event.programAdded pid title tags year genre] ∧
    (add_program s pid title tags year genre).2.2 = pid ∧
    (add_program Store.empty "p1" "Borgen" ["Drama"] 2010 "Political").1.programs.lookup "p1" =
      some { program_id := "p1", title := "Borgen", tags := ["drama"],
             year := 2010, genre := "political" } ∧
    (add_program Store.empty "p1" "Borgen" ["Drama"] 2010 "Political").2.1 =
      [Event.programAdded "p1" "Borgen" ["Drama"] 2010 "Political"] ∧
    (["Drama"] : List String) ≠ ["drama"] ∧ ("Political" : String) ≠ "political" := by
  refine ⟨?_, rfl, rfl, by decide, rfl, by decide, by decide⟩
  unfold add_program
  exact lookup_dictInsert_self s.programs pid _

theorem strTruthy_none : strTruthy none = false := rfl

theorem intTruthy_none : intTruthy none = false := rfl

/-- The combined per-record predicate the three conditional filters of
SearchModule.search amount to: genre clause, year clause and query clause,
each vacuously true when its filter argument is falsy. -/
def codeMatches (q : Option String) (y : Option Int) (g : Option String)
    (p : Program) : Bool :=
  ((!strTruthy g || decide (p.genre = pyLower (orEmpty g))) &&
   (!intTruthy y || decide (p.year = y.getD 0))) &&
  (!strTruthy q || (containsSub (pyLower p.title) (pyLower (orEmpty q)) ||
      p.tags.any (fun t => containsSub t (pyLower (orEmpty q)))))

/-- The result list of search is the stored program records filtered by the
combined predicate. -/
theorem search_results_eq_filter (s : Store) (uid : String)
    (q : Option String) (y : Option Int) (g : Option String) :
    (search s uid q y g).2.1 =
      (s.programs.map (fun kv => kv.2)).filter (codeMatches q y g) := by
  unfold search codeMatches
  cases hq : strTruthy q <;> cases hy : intTruthy y <;> cases hg : strTruthy g <;>
    simp [List.filter_filter, Bool.and_assoc]

/-- C10: falsy filter arguments are treated as absent — with a falsy query
(None or "") no title/tag filtering happens, with a falsy year (None or 0)
no year filtering, with a falsy genre (None or "") no genre filtering; a
call with all filters falsy returns every stored program record and the
published program.searched event carries the empty query string. -/
theorem search_falsy_filters_are_absent (s : Store) (uid : String)
    (q : Option String) (y : Option Int) (g : Option String) :
    (strTruthy q = false → intTruthy y = false → strTruthy g = false →
      (search s uid q y g).2.1 = s.programs.map (fun kv => kv.2) ∧
      (search s uid q y g).2.2 = [Event.programSearched uid ""]) ∧
    (strTruthy q = false → (search s uid q y g).2.1 = (search s uid none y g).2.1) ∧
    (intTruthy y = false → (search s uid q y g).2.1 = (search s uid q none g).2.1) ∧
    (strTruthy g = false → (search s uid q y g).2.1 = (search s uid q y none).2.1) ∧
    strTruthy (some "") = false ∧ strTruthy none = false ∧
    intTruthy (some 0) = false ∧ intTruthy none = false := by
  refine ⟨fun hq hy hg => ⟨?_, ?_⟩, fun hq => ?_, fun hy => ?_, fun hg => ?_,
    rfl, rfl, rfl, rfl⟩
  · rw [search_results_eq_filter]
    have : ∀ p ∈ s.programs.map (fun kv => kv.2), codeMatches q y g p = true := by
      intro p _
      simp [codeMatches, hq, hy, hg]
    rw [List.filter_congr this, List.filter_true]
  · have he : (search s uid q y g).2.2 = [Event.programSearched uid (orEmpty q)] := rfl
    rw [he, orEmpty_of_falsy q hq]
  · rw [search_results_eq_filter, search_results_eq_filter]
    apply List.filter_congr
    intro p _
    simp [codeMatches, hq, strTruthy_none]
  · rw [search_results_eq_filter, search_results_eq_filter]
    apply List.filter_congr
    intro p _
    simp [codeMatches, hy, intTruthy_none]
  · rw [search_results_eq_filter, search_results_eq_filter]
    apply List.filter_congr
    intro p _
    simp [codeMatches, hg, strTruthy_none]

/-- A concrete catalog holding Borgen (tag drama) and Forbrydelsen (no
drama tag or title), built through add_program as in the shipped demo. -/
def borgenStore : Store :=
  (add_program
    (add_program Store.empty "p1" "Borgen" ["politics", "drama", "danish"] 2010
      "political drama").1
    "p2" "Forbrydelsen" ["crime", "thriller", "danish"] 2007 "scandinavian noir").1

/-- Witness for C10: on the concrete catalog, searching with query "",
year 0 and genre absent returns both stored records and logs an
empty-query searched event. -/
theorem search_falsy_filters_are_absent_witness :
    (search borgenStore "u1" (some "") (some 0) none).2.1 =
      borgenStore.programs.map (fun kv => kv.2) ∧
    (search borgenStore "u1" (some "") (some 0) none).2.2 =
      [Event.programSearched "u1" ""] :=
  (search_falsy_filters_are_absent borgenStore "u1" (some "") (some 0) none).1 rfl rfl rfl

/-! ### C4 -/

theorem any_congr_mem {α : Type} {p q : α → Bool} :
    ∀ l : List α, (∀ a ∈ l, p a = q a) → l.any p = l.any q
  | [], _ => rfl
  | a :: tl, h => by
    simp only [List.any_cons]
    rw [h a (List.mem_cons_self a tl),
      any_congr_mem tl (fun b hb => h b (List.mem_cons_of_mem a hb))]

/-- All stored program records have lowercase tags and genre — the shape
add_program gives every record it stores. -/
def TagsGenreNormalized (s : Store) : Prop :=
  ∀ p ∈ s.programs.map (fun kv => kv.2),
    (∀ t ∈ p.tags, pyLower t = t) ∧ pyLower p.genre = p.genre

/-- The matching predicate as the specification words it: case-insensitive
substring match of the query against title and tags, exact year match, and
case-insensitive genre equality — each clause vacuously true when its
filter argument is falsy.  (Spec-side predicate for the refinement
comparison with codeMatches.) -/
def specMatches (q : Option String) (y : Option Int) (g : Option String)
    (p : Program) : Bool :=
  ((!strTruthy g || decide (pyLower p.genre = pyLower (orEmpty g))) &&
   (!intTruthy y || decide (p.year = y.getD 0))) &&
  (!strTruthy q || (containsSub (pyLower p.title) (pyLower (orEmpty q)) ||
      p.tags.any (fun t => containsSub (pyLower t) (pyLower (orEmpty q)))))

/-- C4: on any store whose program records are normalized (as add_program
stores them), search returns exactly the stored records matching all the
given filters in the specified sense: lowercased title or a lowercased tag
contains the lowercased query, the year is exactly the given one, and the
genre equals the given one case-insensitively. -/
theorem search_returns_exactly_matching_records (s : Store) (uid : String)
    (q : Option String) (y : Option Int) (g : Option String)
    (hnorm : TagsGenreNormalized s) :
    (search s uid q y g).2.1 =
      (s.programs.map (fun kv => kv.2)).filter (specMatches q y g) := by
  rw [search_results_eq_filter]
  apply List.filter_congr
  intro p hp
  obtain ⟨htags, hgenre⟩ := hnorm p hp
  have htag := @any_congr_mem String
    (fun t => containsSub (pyLower t) (pyLower (orEmpty q)))
    (fun t => containsSub t (pyLower (orEmpty q)))
    p.tags (fun t ht => by
      show containsSub (pyLower t) (pyLower (orEmpty q)) =
        containsSub t (pyLower (orEmpty q))
      rw [htags t ht])
  unfold codeMatches specMatches
  rw [hgenre, htag]

/-- Witness for C4: the Borgen/Forbrydelsen catalog built through
add_program is normalized, the theorem applies to it with query "drama",
and the result list holds exactly the record titled Borgen. -/
theorem search_returns_exactly_matching_records_witness :
    TagsGenreNormalized borgenStore ∧
    (search borgenStore "u1" (some "drama") none none).2.1 =
      (borgenStore.programs.map (fun kv => kv.2)).filter
        (specMatches (some "drama") none none) ∧
    ((search borgenStore "u1" (some "drama") none none).2.1).map
      (fun p => p.title) = ["Borgen"] := by
  have hn : TagsGenreNormalized borgenStore := by
    unfold TagsGenreNormalized
    decide
  exact ⟨hn,
    search_returns_exactly_matching_records borgenStore "u1" (some "drama") none none hn,
    by decide⟩

end MyDRTV
